import Mathlib

/-!
# Verification of the deja-claude session manager and streaming output parser

A shallow embedding of the core of the `deja-claude` repository:

* the backend `SessionManager` (`backend/src/session.ts`),
* the WebSocket fanout routing table (`backend/src/index.ts`),
* the frontend streaming output parser
  (`frontend/src/hooks/useSession.ts` / `frontend/src/stores/sessions.ts`),

together with theorems settling the spec claims about them.

JavaScript strings are modelled as Lean `String`s; regular-expression tests
from the source are translated into executable character-list predicates.
-/

namespace DejaClaude

/-! ## JavaScript string primitives

`String.prototype.trim` and the regex class `\s` both use the JS whitespace
set: ASCII whitespace, NBSP, the Unicode space separators, and the BOM. -/

/-- The JS whitespace class (`\s`, and the set removed by `trim`). -/
def isJsWs (c : Char) : Bool :=
  let n := c.toNat
  n = 0x20 || n = 0x09 || n = 0x0a || n = 0x0d || n = 0x0b || n = 0x0c ||
  n = 0xa0 || n = 0x1680 || (0x2000 ≤ n && n ≤ 0x200a) ||
  n = 0x2028 || n = 0x2029 || n = 0x202f || n = 0x205f || n = 0x3000 || n = 0xfeff

/-- Characters on which the JS `.` regex atom does not match (line terminators). -/
def isLineTerm (c : Char) : Bool :=
  let n := c.toNat
  n = 0x0a || n = 0x0d || n = 0x2028 || n = 0x2029

/-- `s.trim()` on the character list. -/
def trimChars (cs : List Char) : List Char :=
  ((cs.dropWhile isJsWs).reverse.dropWhile isJsWs).reverse

/-- JS `String.prototype.trim`. -/
def jsTrim (s : String) : String := ⟨trimChars s.data⟩

/-- Weight of one code point in UTF-16 code units (JS `.length` counts units). -/
def utf16Weight (c : Char) : Nat := if 0x10000 ≤ c.toNat then 2 else 1

/-- JS `.length` of a character list (UTF-16 code units). -/
def jsLenL (cs : List Char) : Nat := (cs.map utf16Weight).sum

/-- JS `String.prototype.length`. -/
def jsLength (s : String) : Nat := jsLenL s.data

/-- The regex class `[a-zA-Z]`. -/
def isAsciiAlpha (c : Char) : Bool :=
  (0x41 ≤ c.toNat && c.toNat ≤ 0x5a) || (0x61 ≤ c.toNat && c.toNat ≤ 0x7a)

/-- `/[a-zA-Z]/.test(s)`. -/
def hasAlpha (s : String) : Bool := s.data.any isAsciiAlpha

/-- The regex class `\w` = `[A-Za-z0-9_]`. -/
def isWordChar (c : Char) : Bool :=
  isAsciiAlpha c || c.isDigit || c = '_'

/-- ASCII lower-casing, the case folding relevant to the `/i` flags used
by the source (all case-insensitive literals in it are ASCII). -/
def lowerChar (c : Char) : Char :=
  if 0x41 ≤ c.toNat && c.toNat ≤ 0x5a then Char.ofNat (c.toNat + 32) else c

/-- Lower-case a character list. -/
def lowerList (cs : List Char) : List Char := cs.map lowerChar

/-- Substring test (`String.prototype.includes` / unanchored literal regex). -/
def containsSub (hay needle : List Char) : Bool :=
  match hay with
  | [] => needle.isEmpty
  | _ :: t => needle.isPrefixOf hay || containsSub t needle

/-- Case-insensitive substring test (for `/literal/i` patterns);
`needle` is supplied in lower case. -/
def containsSubCI (hay needle : List Char) : Bool :=
  containsSub (lowerList hay) needle

/-- Does some suffix of `cs` satisfy `p`?  (Used to run an unanchored
regex: try a match at every position.) -/
def anySuffix (p : List Char → Bool) : List Char → Bool
  | [] => p []
  | c :: t => p (c :: t) || anySuffix p t

/-- Case-insensitive anchored test: does `cs` start with `lead`
(an ASCII literal), compared case-insensitively? -/
def startsWithCI (cs : List Char) (lead : String) : Bool :=
  (lowerList lead.data).isPrefixOf (lowerList cs)

/-! ## ANSI / terminal escape stripping

`processData` in `useSession.ts` applies six global regex replaces in
sequence; each pass below is one of them, scanning left to right exactly the
way a global replace does (no rescanning of text before the failure point). -/

/-- After `ESC [`, consume `[0-9;]*` then one `[a-zA-Z]`; return the
remainder on success (`/\x1B\[[0-9;]*[a-zA-Z]/`, also the body of the DEC
private-mode pattern after `ESC [ ?`). -/
def csiTail : List Char → Option (List Char)
  | [] => none
  | c :: cs =>
    if c.isDigit || c = ';' then csiTail cs
    else if isAsciiAlpha c then some cs
    else none

/-- Pass 1: strip `/\x1B\[[0-9;]*[a-zA-Z]/g`.  The scan consumes at least
one character per step, so the input length is enough fuel; the fuel only
makes the recursion structural. -/
def stripCSIFuel : Nat → List Char → List Char
  | 0, cs => cs
  | _ + 1, [] => []
  | fuel + 1, '\x1b' :: '[' :: cs =>
    match csiTail cs with
    | some rem => stripCSIFuel fuel rem
    | none => '\x1b' :: stripCSIFuel fuel ('[' :: cs)
  | fuel + 1, c :: cs => c :: stripCSIFuel fuel cs

def stripCSI (cs : List Char) : List Char := stripCSIFuel cs.length cs

/-- After `ESC ]`, consume `[^\x07]*\x07`; return the remainder. -/
def oscTail : List Char → Option (List Char)
  | [] => none
  | c :: cs => if c = '\x07' then some cs else oscTail cs

/-- Pass 2: strip `/\x1B\][^\x07]*\x07/g` (OSC sequences). -/
def stripOSCFuel : Nat → List Char → List Char
  | 0, cs => cs
  | _ + 1, [] => []
  | fuel + 1, '\x1b' :: ']' :: cs =>
    match oscTail cs with
    | some rem => stripOSCFuel fuel rem
    | none => '\x1b' :: stripOSCFuel fuel (']' :: cs)
  | fuel + 1, c :: cs => c :: stripOSCFuel fuel cs

def stripOSC (cs : List Char) : List Char := stripOSCFuel cs.length cs

/-- Pass 3: strip `/\x1B\[\?[0-9;]*[a-zA-Z]/g` (DEC private-mode sequences). -/
def stripDECFuel : Nat → List Char → List Char
  | 0, cs => cs
  | _ + 1, [] => []
  | fuel + 1, '\x1b' :: '[' :: '?' :: cs =>
    match csiTail cs with
    | some rem => stripDECFuel fuel rem
    | none => '\x1b' :: stripDECFuel fuel ('[' :: '?' :: cs)
  | fuel + 1, c :: cs => c :: stripDECFuel fuel cs

def stripDEC (cs : List Char) : List Char := stripDECFuel cs.length cs

/-- Pass 4: strip `/\x1B[()][AB012]/g` (charset designation). -/
def stripCharset : List Char → List Char
  | [] => []
  | '\x1b' :: c :: d :: cs =>
    if (c = '(' || c = ')') && (d = 'A' || d = 'B' || d = '0' || d = '1' || d = '2') then
      stripCharset cs
    else '\x1b' :: stripCharset (c :: d :: cs)
  | c :: cs => c :: stripCharset cs

/-- Pass 5: strip `/\x1B[>=]/g` (keypad mode). -/
def stripKeypad : List Char → List Char
  | [] => []
  | '\x1b' :: c :: cs =>
    if c = '>' || c = '=' then stripKeypad cs
    else '\x1b' :: stripKeypad (c :: cs)
  | c :: cs => c :: stripKeypad cs

/-- Pass 6 character class: `[\x00-\x08\x0B\x0C\x0E-\x1F]`. -/
def isStrippedCtrl (c : Char) : Bool :=
  let n := c.toNat
  n ≤ 0x08 || n = 0x0b || n = 0x0c || (0x0e ≤ n && n ≤ 0x1f)

/-- Pass 6: remove the control characters above. -/
def stripCtrl (cs : List Char) : List Char :=
  cs.filter (fun c => !isStrippedCtrl c)

/-- `cleanData` from `processData`: the six replaces applied in source order. -/
def cleanData (s : String) : String :=
  ⟨stripCtrl (stripKeypad (stripCharset (stripDEC (stripOSC (stripCSI s.data)))))⟩

/-- JS `String.prototype.split("\n")`: the pieces between the newlines
(`"a\n".split("\n")` is `["a", ""]`, `"".split("\n")` is `[""]`). -/
def splitLines : List Char → List (List Char)
  | [] => [[]]
  | '\n' :: rest => [] :: splitLines rest
  | c :: rest =>
    match splitLines rest with
    | l :: ls => (c :: l) :: ls
    | [] => [[c]]

/-! ## The `uiPatterns` noise filter of `processData` -/

/-- `/⏵⏵\s*bypass permissions/i` tried at one position. -/
def bypassAt (cs : List Char) : Bool :=
  match cs with
  | '⏵' :: '⏵' :: rest =>
    ("bypass permissions".data).isPrefixOf (lowerList (rest.dropWhile isJsWs))
  | _ => false

/-- `/^\s*\/\w+\s+for\s+info/i` ("command hints"). -/
def matchCmdHint (cs : List Char) : Bool :=
  match cs.dropWhile isJsWs with
  | '/' :: rest =>
    decide (rest.takeWhile isWordChar ≠ []) &&
    (let r2 := rest.dropWhile isWordChar
     decide (r2.takeWhile isJsWs ≠ []) &&
     (let r3 := r2.dropWhile isJsWs
      ("for".data).isPrefixOf (lowerList r3) &&
      (let r4 := r3.drop 3
       decide (r4.takeWhile isJsWs ≠ []) &&
       ("info".data).isPrefixOf (lowerList (r4.dropWhile isJsWs)))))
  | _ => false

/-- `/Try ".*"/` tried at one position: the literal `Try "` followed,
on the same line, by another `"`. -/
def tryQuoteAt (cs : List Char) : Bool :=
  ("Try \"".data).isPrefixOf cs && (cs.drop 5).contains '"'

/-- `/^\[.*\]$/` (status indicators such as `[?2026l`):
a bracketed line whose interior contains no line terminator. -/
def matchBracketLine (cs : List Char) : Bool :=
  match cs with
  | '[' :: rest =>
    match rest.reverse with
    | ']' :: mid => mid.all (fun c => !isLineTerm c)
    | _ => false
  | _ => false

/-- `/^\s*\d+\s+tokens/i`. -/
def matchTokenCount (cs : List Char) : Bool :=
  let r1 := cs.dropWhile isJsWs
  decide (r1.takeWhile Char.isDigit ≠ []) &&
  (let r2 := r1.dropWhile Char.isDigit
   decide (r2.takeWhile isJsWs ≠ []) &&
   ("tokens".data).isPrefixOf (lowerList (r2.dropWhile isJsWs)))

/-- The `uiPatterns.some(pattern => pattern.test(trimmed))` check of
`processData`, in source order. -/
def uiPatternMatch (t : String) : Bool :=
  let cs := t.data
  (decide (cs ≠ []) && cs.all (· = '─')) ||
  cs.all isJsWs ||
  anySuffix bypassAt cs ||
  containsSubCI cs ("shift+tab to cycle".data) ||
  containsSubCI cs ("mcp server".data) ||
  matchCmdHint cs ||
  anySuffix tryQuoteAt cs ||
  matchBracketLine cs ||
  matchTokenCount cs

/-! ## `parseClaudeOutput` (stores/sessions.ts) -/

inductive ParseType
  | user | assistant | tool | system | raw | skip
deriving DecidableEq, Repr

structure Parsed where
  type : ParseType
  content : String
  toolName : Option String := none
  toolInput : Option String := none
deriving DecidableEq, Repr

/-- The `skipPatterns` list of `parseClaudeOutput`, in source order. -/
def skipPatternMatch (t : String) : Bool :=
  let cs := t.data
  (decide (cs ≠ []) && cs.all (fun c => c = '─' || c = '━' || c = '═')) ||
  ((cs.dropWhile isJsWs).head? == some '⏵') ||
  containsSubCI cs ("bypass permissions".data) ||
  containsSubCI cs ("shift+tab".data) ||
  containsSubCI cs ("mcp server".data) ||
  ("for info".data).isSuffixOf (lowerList cs) ||
  (['[', '?'].isPrefixOf cs) ||
  ("Try \"".data).isPrefixOf cs

/-- `data.match(/^[❯>]\s/)`. -/
def userMarkerTest (cs : List Char) : Bool :=
  match cs with
  | c :: d :: _ => (c = '❯' || c = '>') && isJsWs d
  | _ => false

/-- `data.replace(/^[❯>]\s*|^You:\s*|^Human:\s*/, '')`: the alternatives are
tried left to right, each anchored at the start; at most one (the first that
matches) is removed. -/
def stripUserMarker (data : String) : String :=
  match data.data with
  | c :: rest =>
    if c = '❯' || c = '>' then ⟨rest.dropWhile isJsWs⟩
    else if ("You:".data).isPrefixOf data.data then ⟨(data.data.drop 4).dropWhile isJsWs⟩
    else if ("Human:".data).isPrefixOf data.data then ⟨(data.data.drop 6).dropWhile isJsWs⟩
    else data
  | [] => data

/-- `data.replace(/^Claude:\s*|^Assistant:\s*/, '')`. -/
def stripAssistantMarker (data : String) : String :=
  if ("Claude:".data).isPrefixOf data.data then ⟨(data.data.drop 7).dropWhile isJsWs⟩
  else if ("Assistant:".data).isPrefixOf data.data then ⟨(data.data.drop 10).dropWhile isJsWs⟩
  else data

/-- The capture group names of the first tool pattern
`/^(Read|Write|Edit|Bash|Grep|Glob|Search|WebFetch|Task|LS|TodoWrite)\s*[:(]/i`. -/
def toolVerbs : List String :=
  ["Read", "Write", "Edit", "Bash", "Grep", "Glob", "Search", "WebFetch", "Task", "LS", "TodoWrite"]

/-- The capture group names of the `Using tool:` / `Tool:` patterns. -/
def toolVerbsShort : List String :=
  ["Read", "Write", "Edit", "Bash", "Grep", "Glob", "Search", "WebFetch", "Task"]

/-- Try the first tool pattern at the start of `cs`; on success return the
captured tool name (as it appears in the input) and the length of the full
match `match[0]` (name, then `\s*`, then one of `:(`).  The regex engine
tries the alternatives of the capture group left to right. -/
def matchToolVerb (cs : List Char) : Option (String × Nat) :=
  toolVerbs.findSome? fun name =>
    let nl := name.data.length
    if startsWithCI cs name then
      let rest := cs.drop nl
      let wsn := (rest.takeWhile isJsWs).length
      match (rest.drop wsn).head? with
      | some c => if c = ':' || c = '(' then some (⟨cs.take nl⟩, nl + wsn + 1) else none
      | none => none
    else none

/-- Try `/^Using tool:\s*(names)/i` or `/^Tool:\s*(names)/i` (per `lead`):
on success return the captured name and the length of `match[0]`. -/
def matchToolLead (lead : String) (cs : List Char) : Option (String × Nat) :=
  let ll := lead.data.length
  if startsWithCI cs lead then
    let rest := cs.drop ll
    let wsn := (rest.takeWhile isJsWs).length
    let rest2 := rest.drop wsn
    toolVerbsShort.findSome? fun name =>
      let nl := name.data.length
      if startsWithCI rest2 name then some (⟨rest2.take nl⟩, ll + wsn + nl) else none
  else none

/-- The `toolPatterns` loop: the three patterns in source order, first match wins. -/
def matchToolPattern (cs : List Char) : Option (String × Nat) :=
  match matchToolVerb cs with
  | some r => some r
  | none =>
    match matchToolLead "Using tool:" cs with
    | some r => some r
    | none => matchToolLead "Tool:" cs

/-- `parseClaudeOutput` from `stores/sessions.ts`. -/
def parseClaudeOutput (data : String) : Parsed :=
  let trimmed := jsTrim data
  if jsLength trimmed < 2 then ⟨.skip, "", none, none⟩
  else if skipPatternMatch trimmed then ⟨.skip, "", none, none⟩
  else
    let cs := data.data
    if userMarkerTest cs || ("You:".data).isPrefixOf cs || ("Human:".data).isPrefixOf cs then
      let content := jsTrim (stripUserMarker data)
      if content ≠ "" then ⟨.user, content, none, none⟩ else ⟨.skip, "", none, none⟩
    else if ("Claude:".data).isPrefixOf cs || ("Assistant:".data).isPrefixOf cs then
      ⟨.assistant, stripAssistantMarker data, none, none⟩
    else
      match matchToolPattern cs with
      | some (tn, m0) => ⟨.tool, data, some tn, some ⟨cs.drop m0⟩⟩
      | none =>
        if containsSub cs ("Session started".data) || containsSub cs ("Process exited".data) ||
           startsWithCI cs "Error:" || containsSub cs ("Connection".data) then
          ⟨.system, data, none, none⟩
        else ⟨.raw, data, none, none⟩

/-! ## Frontend message state (useSession.ts + stores/sessions.ts)

`generateMessageId` produces a fresh, never-falsy string id for each message;
it is modelled as a `Nat` counter (`nextId`).  The store keeps messages per
session in an append-ordered list; `updateMessage` patches the message whose
id matches.  The WebSocket send in `sendInput` is modelled by appending the
payload to `outbox`. -/

inductive Role
  | user | assistant | tool | system
deriving DecidableEq, Repr

structure Msg where
  id : Nat
  role : Role
  content : String
  isStreaming : Bool
  toolName : Option String := none
  toolInput : Option String := none
deriving DecidableEq, Repr

/-- The per-session parser state of `useSession.ts`.  In the source
`currentRole` has type `'user' | 'assistant' | 'tool' | null`, but only
`'assistant'` and `null` are ever assigned. -/
structure OutputParser where
  currentRole : Option Role
  buffer : String
  currentMessageId : Option Nat
deriving DecidableEq, Repr

structure FrontendState where
  parser : OutputParser
  messages : List Msg
  nextId : Nat
  outbox : List String
deriving DecidableEq, Repr

/-- The parser state set on (re)subscription. -/
def initParser : OutputParser := ⟨none, "", none⟩

/-- Frontend state right after subscribing to a session (`n` is the next
fresh message id). -/
def initFrontend (n : Nat) : FrontendState := ⟨initParser, [], n, []⟩

/-- `updateMessage` of the sessions store: patch the message whose id matches. -/
def updateMsg (msgs : List Msg) (mid : Nat) (f : Msg → Msg) : List Msg :=
  msgs.map fun m => if m.id = mid then f m else m

/-- The body of the per-line loop of `processData`. -/
def processLine (st : FrontendState) (line : String) : FrontendState :=
  let trimmed := jsTrim line
  if trimmed = "" then st
  else if uiPatternMatch trimmed then st
  else if jsLength trimmed < 3 ∧ hasAlpha trimmed = false then st
  else
    let parsed := parseClaudeOutput trimmed
    match parsed.type with
    | .skip => st
    | .user =>
      -- user lines are boundary signals only; flush any open assistant message
      match st.parser.currentRole, st.parser.currentMessageId with
      | some .assistant, some mid =>
        { st with
          messages := updateMsg st.messages mid (fun m => { m with isStreaming := false }),
          parser := ⟨none, "", none⟩ }
      | _, _ => st
    | .tool =>
      let st1 :=
        match st.parser.currentRole, st.parser.currentMessageId with
        | some .assistant, some mid =>
          { st with messages := updateMsg st.messages mid (fun m => { m with isStreaming := false }) }
        | _, _ => st
      let toolMsg : Msg := ⟨st1.nextId, .tool, parsed.content, false, parsed.toolName, parsed.toolInput⟩
      -- the source resets currentRole and currentMessageId here but leaves buffer as is
      { st1 with
        messages := st1.messages ++ [toolMsg],
        nextId := st1.nextId + 1,
        parser := { st1.parser with currentRole := none, currentMessageId := none } }
    | .system =>
      { st with
        messages := st.messages ++ [⟨st.nextId, .system, parsed.content, false, none, none⟩],
        nextId := st.nextId + 1 }
    | _ =>
      -- assistant / raw: accumulate into the open assistant message
      match st.parser.currentRole, st.parser.currentMessageId with
      | some .assistant, some mid =>
        let newBuf := st.parser.buffer ++ "\n" ++ line
        { st with
          messages := updateMsg st.messages mid
            (fun m => { m with content := newBuf, isStreaming := true }),
          parser := { st.parser with buffer := newBuf } }
      | _, _ =>
        { st with
          messages := st.messages ++ [⟨st.nextId, .assistant, line, true, none, none⟩],
          nextId := st.nextId + 1,
          parser := ⟨some .assistant, line, some st.nextId⟩ }

/-- `processData`: sanitize the chunk, split on newlines, run the line loop. -/
def processData (st : FrontendState) (data : String) : FrontendState :=
  ((splitLines (cleanData data).data).map (fun cs => (⟨cs⟩ : String))).foldl processLine st

/-- The `exit` case of `ws.onmessage`: close the streaming message if one is
open (the source checks only `parser.currentMessageId`), then append the
system exit message.  The parser state itself is not touched. -/
def onExit (st : FrontendState) (exitCode : Int) : FrontendState :=
  let st1 :=
    match st.parser.currentMessageId with
    | some mid =>
      { st with messages := updateMsg st.messages mid (fun m => { m with isStreaming := false }) }
    | none => st
  { st1 with
    messages := st1.messages ++
      [⟨st1.nextId, .system, "Process exited with code " ++ toString exitCode, false, none, none⟩],
    nextId := st1.nextId + 1 }

/-- `data.replace(/\n$/, '')`. -/
def dropTrailingNewline (s : String) : String :=
  if s.data.getLast? = some '\n' then ⟨s.data.dropLast⟩ else s

/-- `sendInput` of `useSession.ts`, for an open socket on an active session:
for non-whitespace input other than a lone Ctrl+C, optimistically add the
user message and flush any open assistant accumulation; in every case the
raw input is dispatched over the socket. -/
def sendInputFE (st : FrontendState) (data : String) : FrontendState :=
  let st1 : FrontendState :=
    if jsTrim data ≠ "" ∧ data ≠ "\x03" then
      let st2 : FrontendState :=
        { st with
          messages := st.messages ++ [⟨st.nextId, .user, dropTrailingNewline data, false, none, none⟩],
          nextId := st.nextId + 1 }
      match st2.parser.currentRole, st2.parser.currentMessageId with
      | some .assistant, some mid =>
        { st2 with
          messages := updateMsg st2.messages mid (fun m => { m with isStreaming := false }),
          parser := ⟨none, "", none⟩ }
      | _, _ => st2
    else st
  { st1 with outbox := st1.outbox ++ [data] }

/-! ## Backend session registry (backend/src/session.ts)

The node-pty process handle is modelled by `Pty`: `exited` records that the
`onExit` callback has fired (the process has *reported* exit), `killed` that
`kill()` was issued, `writes` the bytes forwarded by `write`, and
`cols`/`rows` the terminal size.  `kill()` sends a signal; the exit report
arrives asynchronously, as its own event (`ptyExit`).  Spawning, which can
throw, is a `SpawnResult` parameter; timestamps (`new Date()`) are `Nat`
parameters; `uuidv4` is an id parameter (fresh by hypothesis where needed).
The `EventEmitter` side channel is modelled at the server layer. -/

/-! Generic insertion-ordered association list, the model of a JS `Map`. -/

namespace JsMap

variable {α β : Type} [BEq α] [LawfulBEq α]

/-- `Map.get` (as an option). -/
def getEntry? (l : List (α × β)) (k : α) : Option β :=
  (l.find? (fun p => p.fst == k)).map Prod.snd

/-- `Map.set`: update in place if the key exists, else append. -/
def setEntry (l : List (α × β)) (k : α) (v : β) : List (α × β) :=
  if l.any (fun p => p.fst == k) then
    l.map (fun p => if p.fst == k then (k, v) else p)
  else l ++ [(k, v)]

/-- `Map.delete`. -/
def delEntry (l : List (α × β)) (k : α) : List (α × β) :=
  l.filter (fun p => p.fst != k)

theorem getEntry?_set_self (l : List (α × β)) (k : α) (v : β) :
    getEntry? (setEntry l k v) k = some v := by
  unfold setEntry
  by_cases h : l.any (fun p => p.fst == k)
  · simp only [if_pos h]
    induction l with
    | nil => simp at h
    | cons p t ih =>
      by_cases hp : p.fst == k
      · simp [getEntry?, List.find?, hp]
      · have ht : t.any (fun p => p.fst == k) := by
          simp [List.any_cons, hp] at h
          simpa using h
        simp only [List.map_cons, if_neg hp]
        simp only [getEntry?, List.find?, hp]
        exact ih ht
  · simp only [if_neg h]
    induction l with
    | nil => simp [getEntry?, List.find?]
    | cons p t ih =>
      have hp : (p.fst == k) = false := by
        by_contra hc
        exact h (by simp [List.any_cons, eq_true_of_ne_false hc])
      have ht : ¬ t.any (fun p => p.fst == k) := by
        intro hc
        exact h (by simp [List.any_cons, hc])
      simp only [List.cons_append, getEntry?, List.find?, hp]
      exact ih ht

theorem find?_key_map_ne (l : List (α × β)) (k k2 : α) (v : β) (h : (k == k2) = false) :
    (l.map (fun p => if p.fst == k then (k, v) else p)).find? (fun p => p.fst == k2)
      = l.find? (fun p => p.fst == k2) := by
  induction l with
  | nil => rfl
  | cons p t ih =>
    by_cases hp : p.fst == k
    · have hpk : p.fst = k := beq_iff_eq.mp hp
      have h2 : (p.fst == k2) = false := by rw [hpk]; exact h
      simp only [List.map_cons, if_pos hp]
      rw [List.find?_cons_of_neg _ (by simp [h]), List.find?_cons_of_neg _ (by simp [h2]), ih]
    · simp only [List.map_cons, if_neg hp]
      by_cases hm : p.fst == k2
      · rw [List.find?_cons_of_pos _ (by simpa using hm), List.find?_cons_of_pos _ (by simpa using hm)]
      · rw [List.find?_cons_of_neg _ (by simpa using hm), List.find?_cons_of_neg _ (by simpa using hm), ih]

theorem find?_key_append_ne (l : List (α × β)) (k k2 : α) (v : β) (h : (k == k2) = false) :
    (l ++ [(k, v)]).find? (fun p => p.fst == k2) = l.find? (fun p => p.fst == k2) := by
  induction l with
  | nil => simp [List.find?, h]
  | cons p t ih =>
    by_cases hm : p.fst == k2
    · rw [List.cons_append, List.find?_cons_of_pos _ (by simpa using hm),
        List.find?_cons_of_pos _ (by simpa using hm)]
    · rw [List.cons_append, List.find?_cons_of_neg _ (by simpa using hm),
        List.find?_cons_of_neg _ (by simpa using hm), ih]

theorem getEntry?_set_ne (l : List (α × β)) (k k2 : α) (v : β) (h : (k2 == k) = false) :
    getEntry? (setEntry l k v) k2 = getEntry? l k2 := by
  have h2 : (k == k2) = false := by
    cases hc : k == k2
    · rfl
    · exact absurd (beq_iff_eq.mp hc).symm (ne_of_beq_false h)
  unfold setEntry getEntry?
  by_cases ha : l.any (fun p => p.fst == k)
  · rw [if_pos ha, find?_key_map_ne l k k2 v h2]
  · rw [if_neg ha, find?_key_append_ne l k k2 v h2]

theorem getEntry?_del_self (l : List (α × β)) (k : α) :
    getEntry? (delEntry l k) k = none := by
  unfold getEntry? delEntry
  induction l with
  | nil => rfl
  | cons p t ih =>
    by_cases hp : p.fst == k
    · rw [List.filter_cons, if_neg (by simp [bne, hp])]
      exact ih
    · rw [List.filter_cons, if_pos (by simp [bne, hp]),
        List.find?_cons_of_neg _ (by simpa using hp)]
      exact ih

theorem getEntry?_del_ne (l : List (α × β)) (k k2 : α) (h : (k2 == k) = false) :
    getEntry? (delEntry l k) k2 = getEntry? l k2 := by
  unfold getEntry? delEntry
  induction l with
  | nil => rfl
  | cons p t ih =>
    by_cases hp : p.fst == k
    · have hpk : p.fst = k := beq_iff_eq.mp hp
      have h2 : (p.fst == k2) = false := by
        rw [hpk]
        cases hc : k == k2
        · rfl
        · exact absurd (beq_iff_eq.mp hc) (fun he => (ne_of_beq_false h) he.symm)
      rw [List.filter_cons, if_neg (by simp [bne, hp]),
        List.find?_cons_of_neg _ (by simpa using h2)]
      exact ih
    · rw [List.filter_cons, if_pos (by simp [bne, hp])]
      by_cases hm : p.fst == k2
      · rw [List.find?_cons_of_pos _ (by simpa using hm), List.find?_cons_of_pos _ (by simpa using hm)]
      · rw [List.find?_cons_of_neg _ (by simpa using hm), List.find?_cons_of_neg _ (by simpa using hm)]
        exact ih

end JsMap

namespace Backend

inductive Status
  | running | stopped | error
deriving DecidableEq, Repr

structure Pty where
  exited : Bool
  killed : Bool
  writes : List String
  cols : Nat
  rows : Nat
deriving DecidableEq, Repr

inductive LogType
  | stdout | stderr | system
deriving DecidableEq, Repr

structure LogEntry where
  timestamp : Nat
  type : LogType
  content : String
deriving DecidableEq, Repr

structure Session where
  id : String
  name : String
  workingDir : String
  pty : Option Pty
  status : Status
  createdAt : Nat
  logs : List LogEntry
deriving DecidableEq, Repr

/-- The `Map<string, Session>` of `SessionManager`, as an insertion-ordered
association list (matching JS `Map` iteration order). -/
structure SessionManager where
  sessions : List (String × Session)
deriving DecidableEq, Repr

def SessionManager.get? (m : SessionManager) (id : String) : Option Session :=
  JsMap.getEntry? m.sessions id

def SessionManager.set (m : SessionManager) (id : String) (s : Session) : SessionManager :=
  ⟨JsMap.setEntry m.sessions id s⟩

def SessionManager.erase (m : SessionManager) (id : String) : SessionManager :=
  ⟨JsMap.delEntry m.sessions id⟩

def emptyManager : SessionManager := ⟨[]⟩

/-- `createSession`: fresh id from the caller, `name || \x7bdefault\x7d`. -/
def createSession (m : SessionManager) (id name workingDir : String) (now : Nat) :
    Session × SessionManager :=
  let session : Session :=
    ⟨id, (if name = "" then "Session " ++ toString (m.sessions.length + 1) else name),
     workingDir, none, .stopped, now, []⟩
  (session, m.set id session)

/-- Outcome of `pty.spawn` (which throws on failure). -/
inductive SpawnResult
  | ok | fail
deriving DecidableEq, Repr

/-- The handle returned by a successful spawn (fixed initial size 120x40). -/
def newPty : Pty := ⟨false, false, [], 120, 40⟩

/-- `startSession`: false if the id is unknown; on spawn success the session
becomes `running` with a fresh handle; on a spawn throw the `catch` sets
status `error` (the old `pty` field is left as it was, since the assignment
never happened). -/
def startSession (m : SessionManager) (id : String) (spawn : SpawnResult) :
    Bool × SessionManager :=
  match m.get? id with
  | none => (false, m)
  | some s =>
    match spawn with
    | .ok => (true, m.set id { s with pty := some newPty, status := .running })
    | .fail => (false, m.set id { s with status := .error })

/-- The `onData` callback: append a stdout log entry
(and emit `session:data`, handled at the server layer). -/
def ptyData (m : SessionManager) (id : String) (data : String) (now : Nat) : SessionManager :=
  match m.get? id with
  | some s => m.set id { s with logs := s.logs ++ [⟨now, .stdout, data⟩] }
  | none => m

/-- The `onExit` callback: status `stopped`, a system log entry, and the
handle is now known to have reported exit.  The `pty` field is *not* set
back to null. -/
def ptyExit (m : SessionManager) (id : String) (exitCode : Int) (now : Nat) : SessionManager :=
  match m.get? id with
  | some s =>
    m.set id
      { s with
        status := .stopped,
        pty := s.pty.map (fun p => { p with exited := true }),
        logs := s.logs ++ [⟨now, .system, "Process exited with code " ++ toString exitCode⟩] }
  | none => m

/-- `sendInput`: guarded only by `!session?.pty` — any non-null handle,
live or dead, is written to. -/
def sendInput (m : SessionManager) (id : String) (data : String) : Bool × SessionManager :=
  match m.get? id with
  | some s =>
    match s.pty with
    | some p => (true, m.set id { s with pty := some { p with writes := p.writes ++ [data] } })
    | none => (false, m)
  | none => (false, m)

/-- `resizeSession`: same guard as `sendInput`. -/
def resizeSession (m : SessionManager) (id : String) (cols rows : Nat) :
    Bool × SessionManager :=
  match m.get? id with
  | some s =>
    match s.pty with
    | some p => (true, m.set id { s with pty := some { p with cols := cols, rows := rows } })
    | none => (false, m)
  | none => (false, m)

/-- `stopSession`: kill the handle if present and set status `stopped`;
the handle is not cleared, and the exit report arrives later via `ptyExit`. -/
def stopSession (m : SessionManager) (id : String) : Bool × SessionManager :=
  match m.get? id with
  | some s =>
    match s.pty with
    | some p => (true, m.set id { s with pty := some { p with killed := true }, status := .stopped })
    | none => (false, m)
  | none => (false, m)

/-- `deleteSession`: kill any live handle, then remove the entry. -/
def deleteSession (m : SessionManager) (id : String) : Bool × SessionManager :=
  match m.get? id with
  | some _ => (true, m.erase id)
  | none => (false, m)

/-- `getLogs`: `[]` if the id is unknown; `logs.slice(-limit)` when `limit`
is truthy (a `0` limit is falsy in JS and returns everything). -/
def getLogs (m : SessionManager) (id : String) (limit : Option Nat) : List LogEntry :=
  match m.get? id with
  | none => []
  | some s =>
    match limit with
    | some l => if l = 0 then s.logs else s.logs.drop (s.logs.length - l)
    | none => s.logs

/-! ### Reachable registry states -/

/-- One registry event: an API call or a pty callback. -/
inductive Step : SessionManager → SessionManager → Prop
  | create (m : SessionManager) (id name wd : String) (now : Nat) :
      Step m (createSession m id name wd now).2
  | start (m : SessionManager) (id : String) (spawn : SpawnResult) :
      Step m (startSession m id spawn).2
  | data (m : SessionManager) (id d : String) (now : Nat) :
      Step m (ptyData m id d now)
  | exit (m : SessionManager) (id : String) (c : Int) (now : Nat) :
      Step m (ptyExit m id c now)
  | input (m : SessionManager) (id d : String) :
      Step m (sendInput m id d).2
  | resize (m : SessionManager) (id : String) (c r : Nat) :
      Step m (resizeSession m id c r).2
  | stop (m : SessionManager) (id : String) :
      Step m (stopSession m id).2
  | delete (m : SessionManager) (id : String) :
      Step m (deleteSession m id).2

/-- Registry states reachable from the empty registry. -/
inductive Reachable : SessionManager → Prop
  | init : Reachable emptyManager
  | step {m m2 : SessionManager} : Reachable m → Step m m2 → Reachable m2

theorem get?_set_self (m : SessionManager) (id : String) (s : Session) :
    (m.set id s).get? id = some s :=
  JsMap.getEntry?_set_self _ _ _

theorem get?_set_ne (m : SessionManager) (id id2 : String) (s : Session) (h : id2 ≠ id) :
    (m.set id s).get? id2 = m.get? id2 :=
  JsMap.getEntry?_set_ne _ _ _ _ (by simpa using h)

theorem get?_erase_self (m : SessionManager) (id : String) :
    (m.erase id).get? id = none :=
  JsMap.getEntry?_del_self _ _

theorem get?_erase_ne (m : SessionManager) (id id2 : String) (h : id2 ≠ id) :
    (m.erase id).get? id2 = m.get? id2 :=
  JsMap.getEntry?_del_ne _ _ _ (by simpa using h)

/-- The forward half of the spec's status invariant: a `running` session
always holds a process handle that has not yet reported exit. -/
def StatusInv (m : SessionManager) : Prop :=
  ∀ id s, m.get? id = some s → s.status = .running →
    ∃ p, s.pty = some p ∧ p.exited = false

theorem statusInv_step : ∀ m m2, Step m m2 → StatusInv m → StatusInv m2 := by
  intro m m2 hs ih
  cases hs with
  | create id name wd now =>
    intro id2 s2 hg hrun
    by_cases hid : id2 = id
    · subst hid
      simp only [createSession] at hg
      rw [get?_set_self] at hg
      cases hg
      simp at hrun
    · simp only [createSession] at hg
      rw [get?_set_ne _ _ _ _ hid] at hg
      exact ih _ _ hg hrun
  | start id spawn =>
    intro id2 s2 hg hrun
    cases hm : m.get? id with
    | none =>
      simp only [startSession, hm] at hg
      exact ih _ _ hg hrun
    | some s =>
      cases spawn with
      | ok =>
        simp only [startSession, hm] at hg
        by_cases hid : id2 = id
        · subst hid
          rw [get?_set_self] at hg
          cases hg
          exact ⟨newPty, rfl, rfl⟩
        · rw [get?_set_ne _ _ _ _ hid] at hg
          exact ih _ _ hg hrun
      | fail =>
        simp only [startSession, hm] at hg
        by_cases hid : id2 = id
        · subst hid
          rw [get?_set_self] at hg
          cases hg
          simp at hrun
        · rw [get?_set_ne _ _ _ _ hid] at hg
          exact ih _ _ hg hrun
  | data id d now =>
    intro id2 s2 hg hrun
    cases hm : m.get? id with
    | none =>
      simp only [ptyData, hm] at hg
      exact ih _ _ hg hrun
    | some s =>
      simp only [ptyData, hm] at hg
      by_cases hid : id2 = id
      · subst hid
        rw [get?_set_self] at hg
        cases hg
        obtain ⟨p, hp, hpe⟩ := ih _ _ hm (by simpa using hrun)
        exact ⟨p, by simpa using hp, hpe⟩
      · rw [get?_set_ne _ _ _ _ hid] at hg
        exact ih _ _ hg hrun
  | exit id c now =>
    intro id2 s2 hg hrun
    cases hm : m.get? id with
    | none =>
      simp only [ptyExit, hm] at hg
      exact ih _ _ hg hrun
    | some s =>
      simp only [ptyExit, hm] at hg
      by_cases hid : id2 = id
      · subst hid
        rw [get?_set_self] at hg
        cases hg
        simp at hrun
      · rw [get?_set_ne _ _ _ _ hid] at hg
        exact ih _ _ hg hrun
  | input id d =>
    intro id2 s2 hg hrun
    cases hm : m.get? id with
    | none =>
      simp only [sendInput, hm] at hg
      exact ih _ _ hg hrun
    | some s =>
      cases hp : s.pty with
      | none =>
        simp only [sendInput, hm, hp] at hg
        exact ih _ _ hg hrun
      | some p =>
        simp only [sendInput, hm, hp] at hg
        by_cases hid : id2 = id
        · subst hid
          rw [get?_set_self] at hg
          cases hg
          obtain ⟨q, hq, hqe⟩ := ih _ _ hm (by simpa using hrun)
          rw [hp] at hq
          cases hq
          exact ⟨_, rfl, hqe⟩
        · rw [get?_set_ne _ _ _ _ hid] at hg
          exact ih _ _ hg hrun
  | resize id c r =>
    intro id2 s2 hg hrun
    cases hm : m.get? id with
    | none =>
      simp only [resizeSession, hm] at hg
      exact ih _ _ hg hrun
    | some s =>
      cases hp : s.pty with
      | none =>
        simp only [resizeSession, hm, hp] at hg
        exact ih _ _ hg hrun
      | some p =>
        simp only [resizeSession, hm, hp] at hg
        by_cases hid : id2 = id
        · subst hid
          rw [get?_set_self] at hg
          cases hg
          obtain ⟨q, hq, hqe⟩ := ih _ _ hm (by simpa using hrun)
          rw [hp] at hq
          cases hq
          exact ⟨_, rfl, hqe⟩
        · rw [get?_set_ne _ _ _ _ hid] at hg
          exact ih _ _ hg hrun
  | stop id =>
    intro id2 s2 hg hrun
    cases hm : m.get? id with
    | none =>
      simp only [stopSession, hm] at hg
      exact ih _ _ hg hrun
    | some s =>
      cases hp : s.pty with
      | none =>
        simp only [stopSession, hm, hp] at hg
        exact ih _ _ hg hrun
      | some p =>
        simp only [stopSession, hm, hp] at hg
        by_cases hid : id2 = id
        · subst hid
          rw [get?_set_self] at hg
          cases hg
          simp at hrun
        · rw [get?_set_ne _ _ _ _ hid] at hg
          exact ih _ _ hg hrun
  | delete id =>
    intro id2 s2 hg hrun
    cases hm : m.get? id with
    | none =>
      simp only [deleteSession, hm] at hg
      exact ih _ _ hg hrun
    | some s =>
      simp only [deleteSession, hm] at hg
      by_cases hid : id2 = id
      · subst hid
        rw [get?_erase_self] at hg
        cases hg
      · rw [get?_erase_ne _ _ _ hid] at hg
        exact ih _ _ hg hrun

theorem statusInv_reachable : ∀ m, Reachable m → StatusInv m := by
  intro m hre
  induction hre with
  | init =>
    intro id s hs _
    simp [emptyManager, SessionManager.get?, JsMap.getEntry?] at hs
  | step _ hs ih =>
    exact statusInv_step _ _ hs ih

end Backend

/-! ## WebSocket fanout layer (backend/src/index.ts)

A connection is identified by a `Nat`; `conns` maps each *open* connection
to its `subscribedSessionId` (closing a socket removes it from `conns`, so
`readyState === OPEN` is membership in `conns`).  `sessionConnections` is
the `Map<string, Set<WebSocket>>` routing table; a `Set` keeps insertion
order and ignores duplicate adds. -/

namespace Server

open Backend

structure ServerState where
  manager : SessionManager
  conns : List (Nat × Option String)
  sessionConnections : List (String × List Nat)
deriving DecidableEq, Repr

def emptyServer : ServerState := ⟨Backend.emptyManager, [], []⟩

/-- Look up an open connection's subscription state. -/
def connFor (conns : List (Nat × Option String)) (c : Nat) : Option (Option String) :=
  JsMap.getEntry? conns c

def connSet (conns : List (Nat × Option String)) (c : Nat) (v : Option String) :
    List (Nat × Option String) :=
  JsMap.setEntry conns c v

def connErase (conns : List (Nat × Option String)) (c : Nat) : List (Nat × Option String) :=
  JsMap.delEntry conns c

/-- Look up a session's subscriber set in the routing table. -/
def subsFor (sc : List (String × List Nat)) (sid : String) : Option (List Nat) :=
  JsMap.getEntry? sc sid

def scSet (sc : List (String × List Nat)) (sid : String) (v : List Nat) :
    List (String × List Nat) :=
  JsMap.setEntry sc sid v

/-- `sessionConnections.get(sid)?.delete(ws)`: remove `c` from the set if
the entry exists; no-op otherwise. -/
def scRemove (sc : List (String × List Nat)) (sid : String) (c : Nat) :
    List (String × List Nat) :=
  sc.map (fun p => if p.fst == sid then (p.fst, p.snd.filter (fun x => x ≠ c)) else p)

/-- A new connection: no subscription yet. -/
def wsOpen (st : ServerState) (c : Nat) : ServerState :=
  { st with conns := connSet st.conns c none }

/-- The `subscribe` case: record the new session id and add the socket to
that session's set.  The socket is *not* removed from the set of any
previously subscribed session. -/
def subscribe (st : ServerState) (c : Nat) (sid : String) : ServerState :=
  let cur := (subsFor st.sessionConnections sid).getD []
  let newSet := if cur.contains c then cur else cur ++ [c]
  { st with
    conns := connSet st.conns c (some sid),
    sessionConnections := scSet st.sessionConnections sid newSet }

/-- The `unsubscribe` case: only acts when the connection currently has a
subscription, and removes it only from that session's set. -/
def unsubscribe (st : ServerState) (c : Nat) : ServerState :=
  match connFor st.conns c with
  | some (some sid) =>
    { st with
      sessionConnections := scRemove st.sessionConnections sid c,
      conns := connSet st.conns c none }
  | _ => st

/-- The `close` handler: remove the socket from its current session's set
(if subscribed) and from the open connections. -/
def wsClose (st : ServerState) (c : Nat) : ServerState :=
  match connFor st.conns c with
  | some (some sid) =>
    { st with
      sessionConnections := scRemove st.sessionConnections sid c,
      conns := connErase st.conns c }
  | some none => { st with conns := connErase st.conns c }
  | none => st

/-- The `input` case: forward to the registry when subscribed. -/
def wsInput (st : ServerState) (c : Nat) (data : String) : ServerState :=
  match connFor st.conns c with
  | some (some sid) => { st with manager := (Backend.sendInput st.manager sid data).2 }
  | _ => st

/-- The connections to which a `session:data` / `session:exit` event for
`sid` is sent: the members of the session's subscriber set whose socket is
still open (`readyState === OPEN`). -/
def fanoutTargets (st : ServerState) (sid : String) : List Nat :=
  ((subsFor st.sessionConnections sid).getD []).filter
    (fun c => (connFor st.conns c).isSome)

/-- The `DELETE /api/sessions/:id` route: only `sessionManager.deleteSession`
is called; the routing table is untouched. -/
def deleteRoute (st : ServerState) (id : String) : Bool × ServerState :=
  let r := Backend.deleteSession st.manager id
  (r.1, { st with manager := r.2 })

end Server

/-! ## Concrete traces used by the claim theorems -/

namespace Backend

/-- A registry holding one freshly created session `sid`. -/
def mgrCreated : SessionManager := (createSession emptyManager "sid" "demo" "/tmp" 0).2

/-- ... after a successful `startSession`. -/
def mgrStarted : SessionManager := (startSession mgrCreated "sid" .ok).2

/-- ... after an explicit `stopSession` (the exit report has not yet arrived). -/
def mgrStopped : SessionManager := (stopSession mgrStarted "sid").2

theorem mgrCreated_reachable : Reachable mgrCreated :=
  Reachable.step Reachable.init (Step.create emptyManager "sid" "demo" "/tmp" 0)

theorem mgrStarted_reachable : Reachable mgrStarted :=
  Reachable.step mgrCreated_reachable (Step.start mgrCreated "sid" .ok)

theorem mgrStopped_reachable : Reachable mgrStopped :=
  Reachable.step mgrStarted_reachable (Step.stop mgrStarted "sid")

end Backend

namespace Server

/-- A server with one created session `sid` and one open socket `1`
subscribed to it. -/
def srvSubscribed : ServerState :=
  subscribe (wsOpen ⟨Backend.mgrCreated, [], []⟩ 1) 1 "sid"

/-- A server whose one socket subscribed to session `A` and then re-subscribed
to session `B`. -/
def srvResubscribed : ServerState :=
  subscribe (subscribe (wsOpen ⟨Backend.emptyManager, [], []⟩ 1) 1 "A") 1 "B"

end Server

namespace Server

theorem subsFor_scRemove (sc : List (String × List Nat)) (sid : String) (c : Nat) :
    subsFor (scRemove sc sid c) sid =
      (subsFor sc sid).map (fun l => l.filter (fun x => x ≠ c)) := by
  induction sc with
  | nil => rfl
  | cons p t ih =>
    by_cases hp : p.fst == sid
    · simp only [scRemove, List.map_cons, if_pos hp]
      unfold subsFor JsMap.getEntry?
      rw [List.find?_cons_of_pos _ (by simpa using hp),
        List.find?_cons_of_pos _ (by simpa using hp)]
      rfl
    · simp only [scRemove, List.map_cons, if_neg hp]
      unfold subsFor JsMap.getEntry?
      rw [List.find?_cons_of_neg _ (by simpa using hp),
        List.find?_cons_of_neg _ (by simpa using hp)]
      exact ih

theorem not_mem_filter_self (l : List Nat) (c : Nat) :
    c ∉ l.filter (fun x => x ≠ c) := by
  intro hmem
  have h := (List.mem_filter.mp hmem).2
  simp at h

theorem connFor_connErase_self (conns : List (Nat × Option String)) (c : Nat) :
    connFor (connErase conns c) c = none :=
  JsMap.getEntry?_del_self _ _

end Server

/-! ## Frontend helper definitions and lemmas -/

/-- A list of lines joined by newline characters. -/
def joinLines : List String → String
  | [] => ""
  | [l] => l
  | l :: ls => l ++ "\n" ++ joinLines ls

/-- A line that survives `processData`'s noise filters and that
`parseClaudeOutput` classifies `raw`. -/
def isRawLine (line : String) : Prop :=
  jsTrim line ≠ "" ∧ uiPatternMatch (jsTrim line) = false ∧
  ¬(jsLength (jsTrim line) < 3 ∧ hasAlpha (jsTrim line) = false) ∧
  (parseClaudeOutput (jsTrim line)).type = ParseType.raw

instance (line : String) : Decidable (isRawLine line) := by
  unfold isRawLine
  exact inferInstance

theorem processLine_raw_open (st : FrontendState) (line : String) (mid : Nat)
    (h : isRawLine line)
    (hrole : st.parser.currentRole = some Role.assistant)
    (hmid : st.parser.currentMessageId = some mid) :
    processLine st line =
      { st with
        messages := updateMsg st.messages mid
          (fun m => { m with content := st.parser.buffer ++ "\n" ++ line, isStreaming := true }),
        parser := { st.parser with buffer := st.parser.buffer ++ "\n" ++ line } } := by
  obtain ⟨h1, h2, h3, h4⟩ := h
  unfold processLine
  rw [if_neg h1, if_neg (by simp [h2]), if_neg h3]
  dsimp only
  rw [h4, hrole, hmid]

theorem processLine_raw_fresh (st : FrontendState) (line : String)
    (h : isRawLine line) (hrole : st.parser.currentRole = none) :
    processLine st line =
      { st with
        messages := st.messages ++ [⟨st.nextId, Role.assistant, line, true, none, none⟩],
        nextId := st.nextId + 1,
        parser := ⟨some Role.assistant, line, some st.nextId⟩ } := by
  obtain ⟨h1, h2, h3, h4⟩ := h
  unfold processLine
  rw [if_neg h1, if_neg (by simp [h2]), if_neg h3]
  dsimp only
  rw [h4, hrole]

theorem foldl_raw_append : ∀ (lines : List String) (st : FrontendState) (mid : Nat),
    (∀ l ∈ lines, isRawLine l) →
    st.parser.currentRole = some Role.assistant →
    st.parser.currentMessageId = some mid →
    st.messages = [⟨mid, Role.assistant, st.parser.buffer, true, none, none⟩] →
    (lines.foldl processLine st).messages =
      [⟨mid, Role.assistant, lines.foldl (fun b l => b ++ "\n" ++ l) st.parser.buffer,
        true, none, none⟩] := by
  intro lines
  induction lines with
  | nil =>
    intro st mid _ _ _ hmsgs
    simpa using hmsgs
  | cons l ls ih =>
    intro st mid hall hrole hmid hmsgs
    rw [List.foldl_cons, processLine_raw_open st l mid (hall l (by simp)) hrole hmid]
    have hres := ih
      { st with
        messages := updateMsg st.messages mid
          (fun m => { m with content := st.parser.buffer ++ "\n" ++ l, isStreaming := true }),
        parser := { st.parser with buffer := st.parser.buffer ++ "\n" ++ l } }
      mid (fun x hx => hall x (by simp [hx]))
      (by simpa using hrole)
      (by simpa using hmid)
      (by rw [show ({ st with
            messages := updateMsg st.messages mid
              (fun m => { m with content := st.parser.buffer ++ "\n" ++ l, isStreaming := true }),
            parser := { st.parser with buffer := st.parser.buffer ++ "\n" ++ l } } :
              FrontendState).messages = updateMsg st.messages mid
              (fun m => { m with content := st.parser.buffer ++ "\n" ++ l, isStreaming := true })
            from rfl, hmsgs]
          simp [updateMsg])
    exact hres

theorem joinLines_eq_foldl : ∀ (rest : List String) (first : String),
    rest.foldl (fun b l => b ++ "\n" ++ l) first = joinLines (first :: rest) := by
  intro rest
  induction rest with
  | nil => intro first; rfl
  | cons x xs ih =>
    intro first
    rw [List.foldl_cons, ih]
    cases xs with
    | nil => rfl
    | cons y ys => simp [joinLines, String.append_assoc]

theorem jsLenL_dropWhile_le (p : Char → Bool) (cs : List Char) :
    jsLenL (cs.dropWhile p) ≤ jsLenL cs := by
  induction cs with
  | nil => exact Nat.le_refl _
  | cons c t ih =>
    by_cases hp : p c
    · rw [List.dropWhile_cons, if_pos hp]
      exact Nat.le_trans ih (by simp [jsLenL, Nat.le_add_left])
    · rw [List.dropWhile_cons, if_neg hp]

theorem jsLenL_reverse (cs : List Char) : jsLenL cs.reverse = jsLenL cs := by
  simp [jsLenL, List.map_reverse, List.sum_reverse]

theorem jsLength_jsTrim_le (s : String) : jsLength (jsTrim s) ≤ jsLength s := by
  calc jsLenL (((s.data.dropWhile isJsWs).reverse.dropWhile isJsWs).reverse)
      = jsLenL ((s.data.dropWhile isJsWs).reverse.dropWhile isJsWs) := jsLenL_reverse _
    _ ≤ jsLenL (s.data.dropWhile isJsWs).reverse := jsLenL_dropWhile_le _ _
    _ = jsLenL (s.data.dropWhile isJsWs) := jsLenL_reverse _
    _ ≤ jsLenL s.data := jsLenL_dropWhile_le _ _

/-! ## The claims -/

section Claims

open Backend Server

/-- C3, counterexample.  The claim states that each connection appears in
the subscriber set of at most one session because re-subscribing removes it
from the prior session's set.  But the `subscribe` handler only records the
new id and adds the socket to the new set: after subscribing to `A` and
then to `B`, socket 1 sits in both sets and is still a delivery target for
session `A`'s fanout events. -/
theorem c3_single_subscription_counterexample :
    Server.subsFor Server.srvResubscribed.sessionConnections "A" = some [1] ∧
    Server.subsFor Server.srvResubscribed.sessionConnections "B" = some [1] ∧
    Server.fanoutTargets Server.srvResubscribed "A" = [1] ∧
    Server.connFor Server.srvResubscribed.conns 1 = some (some "B") := by
  decide

/-- C3, amended: unsubscribing removes the connection from the subscriber
set of the session it is currently subscribed to, and a transport disconnect
removes it from every fanout delivery (its socket is no longer open); but
subscribing to a new session does not remove the connection from the
previous session's set, so a connection can appear in several subscriber
sets at once and keeps receiving fanout for sessions it subscribed to
earlier. -/
theorem c3_unsubscribe_close_cleanup (st : Server.ServerState) (c : Nat) :
    (∀ sid, Server.connFor st.conns c = some (some sid) →
      c ∉ Server.fanoutTargets (Server.unsubscribe st c) sid) ∧
    (∀ sid, c ∉ Server.fanoutTargets (Server.wsClose st c) sid) := by
  constructor
  · intro sid hconn hmem
    simp only [Server.unsubscribe, hconn] at hmem
    have h1 := (List.mem_filter.mp hmem).1
    simp only [Server.fanoutTargets] at h1
    rw [Server.subsFor_scRemove] at h1
    cases hsub : Server.subsFor st.sessionConnections sid with
    | none => rw [hsub] at h1; simp at h1
    | some l =>
      rw [hsub] at h1
      exact Server.not_mem_filter_self l c (by simpa using h1)
  · intro sid hmem
    cases hcf : Server.connFor st.conns c with
    | none =>
      simp only [Server.wsClose, hcf] at hmem
      have h2 := (List.mem_filter.mp hmem).2
      rw [hcf] at h2
      simp at h2
    | some osid =>
      cases osid with
      | none =>
        simp only [Server.wsClose, hcf] at hmem
        have h2 := (List.mem_filter.mp hmem).2
        simp only [Server.connFor_connErase_self] at h2
        simp at h2
      | some sid0 =>
        simp only [Server.wsClose, hcf] at hmem
        have h2 := (List.mem_filter.mp hmem).2
        simp only [Server.connFor_connErase_self] at h2
        simp at h2

/-- C3 witness: the cleanup evaluated on the concrete subscribed server. -/
theorem c3_unsubscribe_close_cleanup_witness :
    1 ∉ Server.fanoutTargets (Server.unsubscribe Server.srvSubscribed 1) "sid" ∧
    1 ∉ Server.fanoutTargets (Server.wsClose Server.srvSubscribed 1) "sid" :=
  ⟨(c3_unsubscribe_close_cleanup Server.srvSubscribed 1).1 "sid" (by decide),
   (c3_unsubscribe_close_cleanup Server.srvSubscribed 1).2 "sid"⟩

/-- C4, counterexample.  The claim states that in every reachable registry
state, `status = running` holds iff the session's `pty` is non-null and has
not reported exit.  The reachable state after `create; start; stop` refutes
the right-to-left direction: `stopSession` killed the process and set the
status to `stopped`, but the handle is still stored (it is never set back to
null) and its exit report has not yet arrived, so the right-hand side holds
while the status is `stopped`. -/
theorem c4_status_iff_counterexample :
    Backend.Reachable Backend.mgrStopped ∧
    Backend.mgrStopped.get? "sid" =
      some ⟨"sid", "demo", "/tmp", some ⟨false, true, [], 120, 40⟩, Backend.Status.stopped, 0, []⟩ :=
  ⟨Backend.mgrStopped_reachable, by decide⟩

/-- C4, amended: in every reachable registry state, `status = running`
*implies* that the session's process handle is non-null and has not reported
exit.  The converse direction fails after an explicit `stopSession`, which
sets the status to `stopped` while the killed process has not yet reported
exit (and the handle is never cleared). -/
theorem c4_running_implies_live_handle (m : Backend.SessionManager)
    (h : Backend.Reachable m) (id : String) (s : Backend.Session)
    (hg : m.get? id = some s) (hrun : s.status = Backend.Status.running) :
    ∃ p, s.pty = some p ∧ p.exited = false :=
  Backend.statusInv_reachable m h id s hg hrun

/-- C4 witness: the invariant evaluated on the concrete running state. -/
theorem c4_running_implies_live_handle_witness :
    ∃ p, (⟨"sid", "demo", "/tmp", some Backend.newPty, Backend.Status.running, 0, []⟩ :
        Backend.Session).pty = some p ∧ p.exited = false :=
  c4_running_implies_live_handle Backend.mgrStarted Backend.mgrStarted_reachable "sid"
    ⟨"sid", "demo", "/tmp", some Backend.newPty, Backend.Status.running, 0, []⟩
    (by decide) (by decide)

/-- C7, counterexample.  The claim states that `sendInput` and `resize`
return false for every session that is not running, including one that was
explicitly stopped.  After `create; start; stop` the session's status is
`stopped`, yet both calls return `true`, because the guard only checks that
the `pty` field is non-null and `stopSession` never clears it. -/
theorem c7_not_running_counterexample :
    (Backend.mgrStopped.get? "sid").map Backend.Session.status =
      some Backend.Status.stopped ∧
    (Backend.sendInput Backend.mgrStopped "sid" "x").fst = true ∧
    (Backend.resizeSession Backend.mgrStopped "sid" 80 24).fst = true :=
  by decide

/-- C7, amended: `sendInput` and `resizeSession` return false and leave the
registry unchanged exactly when the session is absent or holds no process
handle (never started since creation); whenever a handle is present — even
one belonging to a stopped or exited process — both return true and forward
to the handle.  Neither operation can throw (they are total functions). -/
theorem c7_input_resize_guard (m : Backend.SessionManager) (id d : String) (c r : Nat) :
    ((m.get? id = none ∨ ∃ s, m.get? id = some s ∧ s.pty = none) →
      Backend.sendInput m id d = (false, m) ∧
      Backend.resizeSession m id c r = (false, m)) ∧
    (∀ s p, m.get? id = some s → s.pty = some p →
      (Backend.sendInput m id d).fst = true ∧
      (Backend.resizeSession m id c r).fst = true) := by
  constructor
  · rintro (h | ⟨s, hs, hp⟩)
    · simp [Backend.sendInput, Backend.resizeSession, h]
    · simp [Backend.sendInput, Backend.resizeSession, hs, hp]
  · intro s p hs hp
    simp [Backend.sendInput, Backend.resizeSession, hs, hp]

/-- C7 witness: a never-started session rejects input and resize, and the
stopped session with a stale handle accepts them. -/
theorem c7_input_resize_guard_witness :
    (Backend.sendInput Backend.mgrCreated "sid" "x" = (false, Backend.mgrCreated) ∧
      Backend.resizeSession Backend.mgrCreated "sid" 80 24 = (false, Backend.mgrCreated)) ∧
    ((Backend.sendInput Backend.mgrStopped "sid" "x").fst = true ∧
      (Backend.resizeSession Backend.mgrStopped "sid" 80 24).fst = true) :=
  ⟨(c7_input_resize_guard Backend.mgrCreated "sid" "x" 80 24).1
      (Or.inr ⟨⟨"sid", "demo", "/tmp", none, Backend.Status.stopped, 0, []⟩, by decide, rfl⟩),
   (c7_input_resize_guard Backend.mgrStopped "sid" "x" 80 24).2
      ⟨"sid", "demo", "/tmp", some ⟨false, true, [], 120, 40⟩, Backend.Status.stopped, 0, []⟩
      ⟨false, true, [], 120, 40⟩ (by decide) rfl⟩

/-- C8, counterexample.  The claim states that `delete(id)` removes all
associated state including the fanout subscriber set for that id.  Deleting
a subscribed session through the HTTP route removes the session from the
registry, but the WebSocket routing table still maps `"sid"` to the
subscriber set `[1]`: only `sessionManager.deleteSession` is called and
nothing touches `sessionConnections`. -/
theorem c8_delete_counterexample :
    (Server.deleteRoute Server.srvSubscribed "sid").fst = true ∧
    (Server.deleteRoute Server.srvSubscribed "sid").snd.manager.get? "sid" = none ∧
    Server.subsFor (Server.deleteRoute Server.srvSubscribed "sid").snd.sessionConnections "sid" =
      some [1] :=
  by decide

/-- C8, amended: after a successful `delete(id)` the session is gone from
the registry and every subsequent registry operation on `id` fails without
crashing — `start`, `stop` and `sendInput` return false and leave the
registry unchanged, `getLogs` returns the empty list — but the fanout
subscriber set for `id` is *not* removed from the routing table (the delete
route never touches `sessionConnections`). -/
theorem c8_delete_not_found (m : Backend.SessionManager) (id : String)
    (s : Backend.Session) (h : m.get? id = some s) (spawn : Backend.SpawnResult)
    (d : String) (lim : Option Nat) :
    (Backend.deleteSession m id).fst = true ∧
    (Backend.deleteSession m id).snd.get? id = none ∧
    Backend.startSession (Backend.deleteSession m id).snd id spawn =
      (false, (Backend.deleteSession m id).snd) ∧
    Backend.stopSession (Backend.deleteSession m id).snd id =
      (false, (Backend.deleteSession m id).snd) ∧
    Backend.sendInput (Backend.deleteSession m id).snd id d =
      (false, (Backend.deleteSession m id).snd) ∧
    Backend.getLogs (Backend.deleteSession m id).snd id lim = [] ∧
    (∀ st : Server.ServerState,
      (Server.deleteRoute st id).snd.sessionConnections = st.sessionConnections) := by
  have hdel : Backend.deleteSession m id = (true, m.erase id) := by
    simp [Backend.deleteSession, h]
  have hnone : (Backend.deleteSession m id).snd.get? id = none := by
    rw [hdel]
    exact Backend.get?_erase_self m id
  refine ⟨by rw [hdel], hnone, ?_, ?_, ?_, ?_, ?_⟩
  · simp [Backend.startSession, hnone]
  · simp [Backend.stopSession, hnone]
  · simp [Backend.sendInput, hnone]
  · simp [Backend.getLogs, hnone]
  · intro st
    rfl

/-- C8 witness: the amended behaviour evaluated on the concrete registry
holding the one created session. -/
theorem c8_delete_not_found_witness :
    (Backend.deleteSession Backend.mgrCreated "sid").fst = true ∧
    (Backend.deleteSession Backend.mgrCreated "sid").snd.get? "sid" = none ∧
    Backend.startSession (Backend.deleteSession Backend.mgrCreated "sid").snd "sid" .ok =
      (false, (Backend.deleteSession Backend.mgrCreated "sid").snd) ∧
    Backend.stopSession (Backend.deleteSession Backend.mgrCreated "sid").snd "sid" =
      (false, (Backend.deleteSession Backend.mgrCreated "sid").snd) ∧
    Backend.sendInput (Backend.deleteSession Backend.mgrCreated "sid").snd "sid" "x" =
      (false, (Backend.deleteSession Backend.mgrCreated "sid").snd) ∧
    Backend.getLogs (Backend.deleteSession Backend.mgrCreated "sid").snd "sid" none = [] ∧
    (∀ st : Server.ServerState,
      (Server.deleteRoute st "sid").snd.sessionConnections = st.sessionConnections) :=
  c8_delete_not_found Backend.mgrCreated "sid"
    ⟨"sid", "demo", "/tmp", none, Backend.Status.stopped, 0, []⟩ (by decide) .ok "x" none

/-- C9: if spawning fails during `start(id)` for an existing session, then
`start` returns false, the session's status becomes `error`, and the session
stays in the registry under the same id, so a retried `start(id)` (here one
whose spawn succeeds) returns true and makes the session `running`. -/
theorem c9_spawn_failure_recoverable (m : Backend.SessionManager) (id : String)
    (s : Backend.Session) (h : m.get? id = some s) :
    (Backend.startSession m id .fail).fst = false ∧
    (Backend.startSession m id .fail).snd.get? id =
      some { s with status := Backend.Status.error } ∧
    (Backend.startSession (Backend.startSession m id .fail).snd id .ok).fst = true ∧
    (Backend.startSession (Backend.startSession m id .fail).snd id .ok).snd.get? id =
      some { s with status := Backend.Status.running, pty := some Backend.newPty } := by
  have h1 : Backend.startSession m id .fail =
      (false, m.set id { s with status := Backend.Status.error }) := by
    simp [Backend.startSession, h]
  have h2 : (Backend.startSession m id .fail).snd.get? id =
      some { s with status := Backend.Status.error } := by
    rw [h1]
    exact Backend.get?_set_self _ _ _
  have h3 : ∀ m2 : Backend.SessionManager,
      m2.get? id = some { s with status := Backend.Status.error } →
      (Backend.startSession m2 id .ok).fst = true ∧
      (Backend.startSession m2 id .ok).snd.get? id =
        some { s with status := Backend.Status.running, pty := some Backend.newPty } := by
    intro m2 hg
    constructor
    · simp [Backend.startSession, hg]
    · simp only [Backend.startSession, hg]
      exact Backend.get?_set_self _ _ _
  exact ⟨by rw [h1], h2, (h3 _ h2).1, (h3 _ h2).2⟩

/-- The parser run of the spec's example scenario: raw chunks `"Hello"`,
`" world\n"`, then the tool line `"Bash: ls -la"`. -/
def c1Final : FrontendState :=
  processData (processData (processData (initFrontend 0) "Hello") " world\n") "Bash: ls -la"

/-- C1, counterexample.  The claim expects the assistant message's content
to be `"Hello world"`.  The parser splits each chunk into lines separately
and never re-joins a line split across chunks: `"Hello"` opens the
accumulation and `" world"` is appended with a newline separator (keeping
its leading space), so the assistant content is `"Hello\n world"`. -/
theorem c1_example_counterexample :
    c1Final.messages.map Msg.content = ["Hello\n world", "Bash: ls -la"] ∧
    "Hello\n world" ≠ "Hello world" := by
  constructor
  · decide
  · decide

/-- C1, amended: the scenario produces exactly two messages — an assistant
message whose content is `"Hello\n world"` (the two chunks' lines joined by
a newline, the leading space of `" world"` kept) with `isStreaming` false
after the flush, followed by a tool message with `toolName` `"Bash"` and
content `"Bash: ls -la"`. -/
theorem c1_example_scenario :
    c1Final.messages =
      [⟨0, Role.assistant, "Hello\n world", false, none, none⟩,
       ⟨1, Role.tool, "Bash: ls -la", false, some "Bash", some " ls -la"⟩] := by
  decide

/-- The frontend state after accumulating `"Hello"` and then receiving the
session's exit event. -/
def c2ExitState : FrontendState := onExit (processData (initFrontend 0) "Hello") 0

/-- C2, counterexample.  The claim states that session exit flushes the
parser state (role `none`, message id cleared, buffer emptied).  The exit
handler only marks the open message as no longer streaming and appends the
exit notice; the parser state survives untouched, with the role still
`assistant`, the buffer still `"Hello"` and the message id still set. -/
theorem c2_flush_counterexample :
    c2ExitState.parser = ⟨some Role.assistant, "Hello", some 0⟩ := by
  decide

/-- C2, amended: a user turn flushes the parser state completely (role
`none`, id cleared, buffer emptied); a tool invocation resets the role and
the message id but leaves the buffer as it was; session exit does not touch
the parser state at all (it only closes the open message). -/
theorem c2_flush_events :
    (∀ (st : FrontendState) (line : String) (mid : Nat),
      jsTrim line ≠ "" → uiPatternMatch (jsTrim line) = false →
      ¬(jsLength (jsTrim line) < 3 ∧ hasAlpha (jsTrim line) = false) →
      (parseClaudeOutput (jsTrim line)).type = ParseType.user →
      st.parser.currentRole = some Role.assistant →
      st.parser.currentMessageId = some mid →
      (processLine st line).parser = ⟨none, "", none⟩) ∧
    (∀ (st : FrontendState) (line : String),
      jsTrim line ≠ "" → uiPatternMatch (jsTrim line) = false →
      ¬(jsLength (jsTrim line) < 3 ∧ hasAlpha (jsTrim line) = false) →
      (parseClaudeOutput (jsTrim line)).type = ParseType.tool →
      (processLine st line).parser = ⟨none, st.parser.buffer, none⟩) ∧
    (∀ (st : FrontendState) (code : Int), (onExit st code).parser = st.parser) := by
  refine ⟨?_, ?_, ?_⟩
  · intro st line mid h1 h2 h3 h4 hrole hmid
    unfold processLine
    rw [if_neg h1, if_neg (by simp [h2]), if_neg h3]
    dsimp only
    rw [h4, hrole, hmid]
  · intro st line h1 h2 h3 h4
    unfold processLine
    rw [if_neg h1, if_neg (by simp [h2]), if_neg h3]
    dsimp only
    rw [h4]
    cases hrole : st.parser.currentRole with
    | none => rfl
    | some r =>
      cases r with
      | assistant =>
        cases hmid : st.parser.currentMessageId with
        | none => rfl
        | some mid => rfl
      | user => rfl
      | tool => rfl
      | system => rfl
  · intro st code
    unfold onExit
    cases hmid : st.parser.currentMessageId with
    | none => rfl
    | some mid => rfl

/-- C2 witness: the three flush behaviours evaluated on the concrete state
with an open `"Hello"` accumulation (user line `"❯ hi"`, tool line
`"Bash: ls"`, and the exit event). -/
theorem c2_flush_events_witness :
    (processLine (processData (initFrontend 0) "Hello") "❯ hi").parser = ⟨none, "", none⟩ ∧
    (processLine (processData (initFrontend 0) "Hello") "Bash: ls").parser =
      ⟨none, "Hello", none⟩ ∧
    (onExit (processData (initFrontend 0) "Hello") 0).parser =
      (processData (initFrontend 0) "Hello").parser :=
  ⟨c2_flush_events.1 (processData (initFrontend 0) "Hello") "❯ hi" 0
      (by decide) (by decide) (by decide) (by decide) (by decide) (by decide),
   (c2_flush_events.2.1 (processData (initFrontend 0) "Hello") "Bash: ls"
      (by decide) (by decide) (by decide) (by decide)).trans (by decide),
   c2_flush_events.2.2 (processData (initFrontend 0) "Hello") 0⟩

/-- C5: a sequence of raw-classified lines with no intervening user, tool,
system or exit event accumulates into exactly one assistant message — one
message id throughout — whose content is the lines joined by newline. -/
theorem c5_raw_lines_single_message (lines : List String) (n : Nat)
    (hne : lines ≠ []) (hall : ∀ l ∈ lines, isRawLine l) :
    (lines.foldl processLine (initFrontend n)).messages =
      [⟨n, Role.assistant, joinLines lines, true, none, none⟩] := by
  cases lines with
  | nil => exact absurd rfl hne
  | cons first rest =>
    rw [List.foldl_cons,
      processLine_raw_fresh (initFrontend n) first (hall first (by simp)) rfl]
    have hres := foldl_raw_append rest
      { initFrontend n with
        messages := [⟨n, Role.assistant, first, true, none, none⟩],
        nextId := n + 1,
        parser := ⟨some Role.assistant, first, some n⟩ }
      n (fun x hx => hall x (by simp [hx])) rfl rfl rfl
    exact hres.trans (by rw [← joinLines_eq_foldl rest first])

/-- C5 witness: the accumulation evaluated on the concrete raw lines
`"Hello"` and `"world"`. -/
theorem c5_raw_lines_single_message_witness :
    ((["Hello", "world"] : List String).foldl processLine (initFrontend 0)).messages =
      [⟨0, Role.assistant, joinLines ["Hello", "world"], true, none, none⟩] :=
  c5_raw_lines_single_message ["Hello", "world"] 0 (by decide) (by decide)

/-- The frontend state after accumulating `"Hello"` and then sending the
lone Ctrl+C byte as input. -/
def c6CtrlC : FrontendState := sendInputFE (processData (initFrontend 0) "Hello") "\x03"

/-- C6, counterexample.  The claim states that every input sent while an
assistant accumulation is open flushes it before dispatch.  The source only
flushes when the input is non-whitespace and is not the lone Ctrl+C byte:
sending `"\x03"` dispatches the input (it reaches the outbox) while the
assistant message stays streaming and the parser stays open. -/
theorem c6_input_flush_counterexample :
    c6CtrlC.outbox = ["\x03"] ∧
    c6CtrlC.messages = [⟨0, Role.assistant, "Hello", true, none, none⟩] ∧
    c6CtrlC.parser.currentRole = some Role.assistant := by
  decide

/-- C6, amended: for input whose trim is non-empty and which is not the
lone Ctrl+C byte, sending it while an assistant accumulation is open first
adds the optimistic user message, then flushes the open assistant message
(`isStreaming` set to false, parser state cleared), and then dispatches the
raw input; whitespace-only input and `"\x03"` are dispatched without any
flush. -/
theorem c6_input_flushes_open_message (st : FrontendState) (data : String) (mid : Nat)
    (h1 : jsTrim data ≠ "") (h2 : data ≠ "\x03")
    (hrole : st.parser.currentRole = some Role.assistant)
    (hmid : st.parser.currentMessageId = some mid) :
    sendInputFE st data =
      { st with
        messages := updateMsg
          (st.messages ++ [⟨st.nextId, Role.user, dropTrailingNewline data, false, none, none⟩])
          mid (fun m => { m with isStreaming := false }),
        nextId := st.nextId + 1,
        parser := ⟨none, "", none⟩,
        outbox := st.outbox ++ [data] } := by
  unfold sendInputFE
  rw [if_pos ⟨h1, h2⟩]
  dsimp only
  rw [hrole, hmid]

/-- C6 witness: the flush-then-dispatch behaviour evaluated on the concrete
open accumulation with input `"hi\n"`. -/
theorem c6_input_flushes_open_message_witness :
    sendInputFE (processData (initFrontend 0) "Hello") "hi\n" =
      { processData (initFrontend 0) "Hello" with
        messages := updateMsg
          ((processData (initFrontend 0) "Hello").messages ++
            [⟨(processData (initFrontend 0) "Hello").nextId, Role.user,
              dropTrailingNewline "hi\n", false, none, none⟩])
          0 (fun m => { m with isStreaming := false }),
        nextId := (processData (initFrontend 0) "Hello").nextId + 1,
        parser := ⟨none, "", none⟩,
        outbox := (processData (initFrontend 0) "Hello").outbox ++ ["hi\n"] } :=
  c6_input_flushes_open_message (processData (initFrontend 0) "Hello") "hi\n" 0
    (by decide) (by decide) (by decide) (by decide)

/-- C10: every line whose trimmed text is shorter than 2 characters is
classified `skip` by `parseClaudeOutput` — before any pattern is consulted
and regardless of alphabetic content, so even a single genuine alphabetic
character is dropped — and processing such a line leaves the frontend state
(and so the reconstructed transcript) unchanged. -/
theorem c10_short_lines_skipped (line : String) (h : jsLength (jsTrim line) < 2) :
    (parseClaudeOutput line).type = ParseType.skip ∧
    ∀ st : FrontendState, processLine st line = st := by
  have hskip : ∀ s : String, jsLength (jsTrim s) < 2 →
      (parseClaudeOutput s).type = ParseType.skip := by
    intro s hs
    unfold parseClaudeOutput
    rw [if_pos hs]
  refine ⟨hskip line h, ?_⟩
  intro st
  unfold processLine
  by_cases h1 : jsTrim line = ""
  · rw [if_pos h1]
  · rw [if_neg h1]
    by_cases h2 : uiPatternMatch (jsTrim line) = true
    · rw [if_pos h2]
    · rw [if_neg h2]
      by_cases h3 : jsLength (jsTrim line) < 3 ∧ hasAlpha (jsTrim line) = false
      · rw [if_pos h3]
      · rw [if_neg h3]
        dsimp only
        rw [hskip (jsTrim line) (Nat.lt_of_le_of_lt (jsLength_jsTrim_le _) h)]

/-- C10 witness: the single alphabetic character `"a"` is skipped and
dropped. -/
theorem c10_short_lines_skipped_witness :
    (parseClaudeOutput "a").type = ParseType.skip ∧
    processLine (initFrontend 0) "a" = initFrontend 0 :=
  ⟨(c10_short_lines_skipped "a" (by decide)).1,
   (c10_short_lines_skipped "a" (by decide)).2 (initFrontend 0)⟩

/-- C9 witness: the recovery evaluated on the concrete registry with one
created session (spawn fails, then the retry succeeds). -/
theorem c9_spawn_failure_recoverable_witness :
    (Backend.startSession Backend.mgrCreated "sid" .fail).fst = false ∧
    (Backend.startSession Backend.mgrCreated "sid" .fail).snd.get? "sid" =
      some ⟨"sid", "demo", "/tmp", none, Backend.Status.error, 0, []⟩ ∧
    (Backend.startSession (Backend.startSession Backend.mgrCreated "sid" .fail).snd "sid" .ok).fst
      = true ∧
    (Backend.startSession
        (Backend.startSession Backend.mgrCreated "sid" .fail).snd "sid" .ok).snd.get? "sid" =
      some ⟨"sid", "demo", "/tmp", some Backend.newPty, Backend.Status.running, 0, []⟩ :=
  c9_spawn_failure_recoverable Backend.mgrCreated "sid"
    ⟨"sid", "demo", "/tmp", none, Backend.Status.stopped, 0, []⟩ (by decide)

end Claims

end DejaClaude
